import Mathlib

/-!
# Verification of the osu-discord-bot core loop

Shallow embedding of the poll–dedupe–prune loop and the result-to-notification
transform of `src/index.ts` (Yumeo0/osu-discord-bot), together with proofs of
the specification's claims about it.

Conventions of the embedding:
* JavaScript numbers that only ever hold integer values are `Nat`;
  JavaScript numbers that hold fractional values (accuracy) are `Rat`.
* Fields that may be `undefined` in the upstream payload are `Option _`.
* The sqlite table behind the sequelize `Score` model is a list of rows kept
  most-recently-inserted first, plus the auto-increment counter; `findAll`
  with `ORDER BY id DESC` is modelled by an explicit sort on the filtered rows.
* String formatting applied by the embed builder (template interpolation,
  `toFixed`) is abstracted: the embed structure stores the values that the
  source interpolates into each field.
-/

/-- Does the character list start with the pattern? (Helper for the substring
test below; structurally recursive so that it evaluates inside the kernel.) -/
def charListStartsWith : List Char → List Char → Bool
  | _, [] => true
  | [], _ :: _ => false
  | c :: rest, p :: prest => c == p && charListStartsWith rest prest

/-- Does the character list contain the pattern as a contiguous run? -/
def charListContains : List Char → List Char → Bool
  | [], pat => charListStartsWith [] pat
  | c :: rest, pat => charListStartsWith (c :: rest) pat || charListContains rest pat

/-- JS `String.prototype.includes`: substring containment test
(`score.beatmap.mode.includes("mania")`, `score.beatmap.status.includes("ranked")`). -/
def strContains (s pat : String) : Bool := charListContains s.data pat.data

/-- Statistics of a raw upstream score: each of the six hit counters may be
absent (`miss`, `meh`, `ok`, `great` from `osu.Score.Statistics`; `good`,
`perfect` added by the `OsuScoreStatistics` interface). -/
structure ScoreStatistics where
  miss : Option Nat
  meh : Option Nat
  ok : Option Nat
  good : Option Nat
  great : Option Nat
  perfect : Option Nat
deriving DecidableEq, Repr

/-- Statistics after `fixScore`: every counter defaulted (`OsuScoreFixedStatistics`). -/
structure FixedStatistics where
  miss : Nat
  meh : Nat
  ok : Nat
  good : Nat
  great : Nat
  perfect : Nat
deriving DecidableEq, Repr

/-- The user object attached to a score (`score.user`). -/
structure ScoreUser where
  id : Nat
  username : String
  avatar_url : String
deriving DecidableEq, Repr

/-- The beatmap attached to a score (`score.beatmap`). -/
structure Beatmap where
  id : Nat
  mode : String
  status : String
deriving DecidableEq, Repr

/-- The beatmapset attached to a score (`score.beatmapset`). -/
structure Beatmapset where
  id : Nat
  title : String
  artist : String
  cover2x : String
deriving DecidableEq, Repr

/-- A raw upstream score (`OsuScore`): the fields of
`osu.Score.WithUserBeatmapBeatmapset` that the program reads. -/
structure Score where
  id : Nat
  accuracy : Rat
  user : ScoreUser
  beatmap : Beatmap
  beatmapset : Beatmapset
  statistics : ScoreStatistics
  total_score : Nat
  legacy_total_score : Nat
  pp : Option Rat
  rank : String
  max_combo : Nat
  mods : List String
  ended_at : String
deriving DecidableEq, Repr

/-- A score after `fixScore` (`OsuScoreFixed`). -/
structure FixedScore where
  id : Nat
  accuracy : Rat
  user : ScoreUser
  beatmap : Beatmap
  beatmapset : Beatmapset
  statistics : FixedStatistics
  total_score : Nat
  legacy_total_score : Nat
  pp : Option Rat
  rank : String
  max_combo : Nat
  mods : List String
  ended_at : String
deriving DecidableEq, Repr

/-- `fixScore`: spread the score and default each statistic counter with `?? 0`. -/
def fixScore (score : Score) : FixedScore :=
  { id := score.id
    accuracy := score.accuracy
    user := score.user
    beatmap := score.beatmap
    beatmapset := score.beatmapset
    statistics :=
      { miss := score.statistics.miss.getD 0
        meh := score.statistics.meh.getD 0
        ok := score.statistics.ok.getD 0
        good := score.statistics.good.getD 0
        perfect := score.statistics.perfect.getD 0
        great := score.statistics.great.getD 0 }
    total_score := score.total_score
    legacy_total_score := score.legacy_total_score
    pp := score.pp
    rank := score.rank
    max_combo := score.max_combo
    mods := score.mods
    ended_at := score.ended_at }

/-- `calculateAccuracy`: pass the raw accuracy through when nonzero, otherwise
compute it from the fixed statistics, branching on whether the beatmap mode
contains `"mania"`. -/
def calculateAccuracy (score : FixedScore) : Rat :=
  if score.accuracy ≠ 0 then score.accuracy
  else if strContains score.beatmap.mode "mania" then
    let total_hits : Rat := (score.statistics.perfect : Rat) + (score.statistics.good : Rat)
      + (score.statistics.meh : Rat) + (score.statistics.great : Rat)
      + (score.statistics.ok : Rat) + (score.statistics.miss : Rat)
    ((50 * (score.statistics.meh : Rat)) + (100 * (score.statistics.ok : Rat))
        + (200 * (score.statistics.good : Rat)) + (300 * (score.statistics.great : Rat))
        + (300 * (score.statistics.perfect : Rat))) / (total_hits * 300)
  else
    let total_hits : Rat := (score.statistics.meh : Rat) + (score.statistics.great : Rat)
      + (score.statistics.ok : Rat) + (score.statistics.miss : Rat)
    (((score.statistics.great : Rat) * 300) + ((score.statistics.ok : Rat) * 100)
        + ((score.statistics.meh : Rat) * 50)) / (total_hits * 300)

/-- The divisor of the JS division performed by `calculateAccuracy` is nonzero.
JS division is total on floats: when the divisor `total_hits * 300` is `0` the
source computes `0 / 0 = NaN` (or `Infinity`); this predicate marks exactly the
inputs on which the computed accuracy is a finite number. -/
def accuracyDefined (score : FixedScore) : Bool :=
  if score.accuracy ≠ 0 then true
  else if strContains score.beatmap.mode "mania" then
    ((score.statistics.perfect : Rat) + (score.statistics.good : Rat)
      + (score.statistics.meh : Rat) + (score.statistics.great : Rat)
      + (score.statistics.ok : Rat) + (score.statistics.miss : Rat)) * 300 ≠ 0
  else
    ((score.statistics.meh : Rat) + (score.statistics.great : Rat)
      + (score.statistics.ok : Rat) + (score.statistics.miss : Rat)) * 300 ≠ 0

/-- One row of the sqlite `Scores` table behind the sequelize `Score` model:
auto-increment primary key `id`, plus `userId`, `scoreId` (declared
`unique: true`) and `gamemode`. -/
structure DedupRecord where
  id : Nat
  userId : Nat
  scoreId : Nat
  gamemode : String
deriving DecidableEq, Repr

/-- The persisted dedup store: the table rows (kept most-recently-inserted
first, so row ids strictly decrease along the list) and the auto-increment
counter for the next `id`. -/
structure Store where
  records : List DedupRecord
  nextId : Nat
deriving DecidableEq, Repr

/-- A freshly synced empty database (sqlite auto-increment starts at 1). -/
def emptyStore : Store := ⟨[], 1⟩

/-- `Score.findOne({ where: { userId, scoreId, gamemode } })` viewed as an
existence check. -/
def existsTriple (u sid : Nat) (gm : String) (st : Store) : Bool :=
  st.records.any fun r => r.userId == u && r.scoreId == sid && r.gamemode == gm

/-- Error raised by the database layer: sequelize `Score.create` rejects with a
unique-constraint violation. -/
inductive DbError where
  | conflict
deriving DecidableEq, Repr

/-- `Score.create({ userId, scoreId, gamemode })`: rejects when the column
uniqueness constraint is violated — the model declares `unique: true` on
`scoreId` alone — otherwise appends a row with the next auto-increment id and
returns the created row. -/
def create (u sid : Nat) (gm : String) (st : Store) :
    Except DbError (DedupRecord × Store) :=
  if st.records.any fun r => r.scoreId == sid then .error .conflict
  else
    let r : DedupRecord := ⟨st.nextId, u, sid, gm⟩
    .ok (r, ⟨r :: st.records, st.nextId + 1⟩)

/-- The sequelize `where: { userId, gamemode }` row predicate. -/
def pairFilter (u : Nat) (gm : String) (r : DedupRecord) : Bool :=
  r.userId == u && r.gamemode == gm

/-- `Score.findAll({ where: { userId, gamemode }, order: [["id", "DESC"]] })`:
the rows of the (userId, gamemode) partition ordered by row id descending. -/
def findAllDesc (st : Store) (u : Nat) (gm : String) : List DedupRecord :=
  List.insertionSort (fun a b => b.id ≤ a.id) (st.records.filter (pairFilter u gm))

/-- The prune step (lines 130–137 of `src/index.ts`): list the partition for
(`user.id`, `score.beatmap.mode`) ordered by id descending and, when it holds
more than 10 rows, `Score.destroy` the row whose id is that of the 11th entry
(`userScores[10]`). -/
def prune (u : Nat) (gm : String) (st : Store) : Store :=
  let userScores := findAllDesc st u gm
  if h : 10 < userScores.length then
    { st with records := st.records.filter fun r => r.id != (userScores.get ⟨10, h⟩).id }
  else st

/-- A rendered notification (`EmbedBuilder` result). String formatting is
abstracted: each field stores the value the source interpolates into it.
`maniaStats` is `some` exactly for the mania embed, which additionally renders
the six statistic buckets. `color` is the result of the JS property lookup
`colors[score.rank]`, which is `undefined` (`none`) when the rank is not one of
the six keys. -/
structure Embed where
  authorName : String
  authorUrl : String
  authorIcon : String
  titleSongTitle : String
  titleArtist : String
  titlePpTag : String
  url : String
  modsShown : String
  scoreShown : Nat
  accuracyShown : Rat
  maxCombo : Nat
  maniaStats : Option FixedStatistics
  image : String
  thumbnail : String
  color : Option String
  footerText : Option String
  footerIcon : String
  timestamp : String
deriving DecidableEq, Repr

/-- The `colors` palette object, keyed by rank grade. JS property lookup
`colors[g]` yields `undefined` (`none`) for a key outside the six entries. -/
def colorsLookup (g : String) : Option String :=
  if g == "X" then some "#de31ae"
  else if g == "S" then some "#02b5c3"
  else if g == "A" then some "#88da20"
  else if g == "B" then some "#ebbd48"
  else if g == "C" then some "#ff8e5d"
  else if g == "D" then some "#ff5a5a"
  else none

/-- The `modeNames` object, keyed by beatmap mode string; `undefined` (`none`)
outside the four entries. -/
def modeNamesLookup (m : String) : Option String :=
  if m == "osu" then some "osu!"
  else if m == "taiko" then some "osu!taiko"
  else if m == "fruits" then some "osu!catch"
  else if m == "mania" then some "osu!mania"
  else none

/-- JS `Math.round` on the (rational-modelled) pp value. -/
def jsRound (q : Rat) : Int := (q + 1/2).floor

/-- The pp tag of the embed title: `[ <rounded pp>pp ]` when the beatmap status
contains `"ranked"`, else `[ Unranked ]`. -/
def titlePpTagOf (score : FixedScore) : String :=
  if strContains score.beatmap.status "ranked" then
    "[ " ++ toString (jsRound (score.pp.getD 0)) ++ "pp ]"
  else "[ Unranked ]"

/-- The description line: the mod acronyms joined by `", "`, or the
`"No Mods"` sentinel when the list is empty. -/
def modsShownOf (score : FixedScore) : String :=
  if 0 < score.mods.length then String.intercalate ", " score.mods else "No Mods"

/-- The Score field value: `total_score` unless it equals 0, in which case the
legacy field is shown. -/
def scoreShownOf (score : FixedScore) : Nat :=
  if score.total_score == 0 then score.legacy_total_score else score.total_score

/-- `createGenericScoreEmbed`. -/
def createGenericScoreEmbed (score : FixedScore) : Embed :=
  { authorName := score.user.username
    authorUrl := "https://osu.ppy.sh/users/" ++ toString score.user.id
    authorIcon := score.user.avatar_url
    titleSongTitle := score.beatmapset.title
    titleArtist := score.beatmapset.artist
    titlePpTag := titlePpTagOf score
    url := "https://osu.ppy.sh/beatmapsets/" ++ toString score.beatmapset.id
      ++ "#" ++ score.beatmap.mode ++ "/" ++ toString score.beatmap.id
    modsShown := modsShownOf score
    scoreShown := scoreShownOf score
    accuracyShown := calculateAccuracy score * 100
    maxCombo := score.max_combo
    maniaStats := none
    image := score.beatmapset.cover2x
    thumbnail := "https://raw.githubusercontent.com/Yumeo0/osu-icons/refs/heads/main/Grade-"
      ++ score.rank ++ ".png"
    color := colorsLookup score.rank
    footerText := modeNamesLookup score.beatmap.mode
    footerIcon := "https://github.com/Yumeo0/osu-icons/blob/main/"
      ++ score.beatmap.mode ++ ".png?raw=true"
    timestamp := score.ended_at }

/-- `createManiaScoreEmbed`: the generic embed plus the six statistic fields. -/
def createManiaScoreEmbed (score : FixedScore) : Embed :=
  { createGenericScoreEmbed score with maniaStats := some score.statistics }

/-- `createScoreEmbed`: dispatch on whether the beatmap mode contains `"mania"`. -/
def createScoreEmbed (score : FixedScore) : Embed :=
  if strContains score.beatmap.mode "mania" then createManiaScoreEmbed score
  else createGenericScoreEmbed score

/-- The observable outcome of one per-result iteration: the updated store, the
row created by `Score.create` (if any), and the embed sent to the channel
(if any). -/
structure IngestOut where
  store : Store
  inserted : Option DedupRecord
  sent : Option Embed
deriving DecidableEq, Repr

/-- The body of `for (const score of scores)` (lines 110–138 of
`src/index.ts`), for the roster user `u` (`user.id`) and the fetched `score`:
`findOne` on the triple (`score.user.id`, `score.id`, `score.beatmap.mode`);
when absent, `Score.create` that triple (a rejection propagates out of the
loop) and send the rendered embed; in every non-error case finish with the
prune step on the (`user.id`, `score.beatmap.mode`) partition. -/
def ingestStep (u : Nat) (score : Score) (st : Store) : Except DbError IngestOut :=
  if existsTriple score.user.id score.id score.beatmap.mode st then
    .ok { store := prune u score.beatmap.mode st, inserted := none, sent := none }
  else
    match create score.user.id score.id score.beatmap.mode st with
    | .error e => .error e
    | .ok (r, st1) =>
      .ok { store := prune u score.beatmap.mode st1, inserted := some r,
            sent := some (createScoreEmbed (fixScore score)) }

/-- Error aborting a sweep: a rejected `api.getUserScores` call (there is no
try/catch around it) or a rejected database call. -/
inductive SweepError where
  | fetch
  | db
deriving DecidableEq, Repr

/-- The inner `for (const score of scores)` loop: ingest each fetched score in
order, collecting the embeds sent to the channel; a database rejection
propagates. -/
def ingestScores (u : Nat) : List Score → Store → Except DbError (Store × List Embed)
  | [], st => .ok (st, [])
  | s :: rest, st =>
    match ingestStep u s st with
    | .error e => .error e
    | .ok out =>
      match ingestScores u rest out.store with
      | .error e => .error e
      | .ok (st2, es) => .ok (st2, out.sent.toList ++ es)

/-- One (user, mode) pair of the sweep: `await api.getUserScores(user, "recent",
mode)` — modelled by the supplied `fetch` function, which may fail — followed by
the score loop. No try/catch surrounds the fetch, so its failure propagates. -/
def sweepUserMode (fetch : Nat → Nat → Except Unit (List Score)) (u : Nat) (mode : Nat)
    (st : Store) : Except SweepError (Store × List Embed) :=
  match fetch u mode with
  | .error _ => .error .fetch
  | .ok scores =>
    match ingestScores u scores st with
    | .error _ => .error .db
    | .ok res => .ok res

/-- The `for (let mode = 0; mode <= 3; mode++)` loop for one user, over the
given list of mode indices. -/
def sweepModes (fetch : Nat → Nat → Except Unit (List Score)) (u : Nat) :
    List Nat → Store → Except SweepError (Store × List Embed)
  | [], st => .ok (st, [])
  | m :: rest, st =>
    match sweepUserMode fetch u m st with
    | .error e => .error e
    | .ok (st1, es1) =>
      match sweepModes fetch u rest st1 with
      | .error e => .error e
      | .ok (st2, es2) => .ok (st2, es1 ++ es2)

/-- The full roster sweep of one cron tick (`for (const user of users)` around
the mode loop): any error thrown inside aborts the whole tick callback. -/
def sweep (fetch : Nat → Nat → Except Unit (List Score)) :
    List Nat → Store → Except SweepError (Store × List Embed)
  | [], st => .ok (st, [])
  | u :: rest, st =>
    match sweepModes fetch u [0, 1, 2, 3] st with
    | .error e => .error e
    | .ok (st1, es1) =>
      match sweep fetch rest st1 with
      | .error e => .error e
      | .ok (st2, es2) => .ok (st2, es1 ++ es2)

/-- The static roster of `usernames` resolved at startup. -/
def usernames : List Nat := [12241009, 22248746, 37516721]

/-- An entry of the `modes` array: either an `osu.Ruleset` enum value or a mode
name string (`[osu.Ruleset.osu, osu.Ruleset.mania, "fruits", "mania"]`). Only
its length enters the cadence computation. -/
inductive ModeEntry where
  | ruleset (n : Nat)
  | modeName (s : String)
deriving DecidableEq, Repr

/-- The `modes` array of the source. -/
def modesArr : List ModeEntry := [.ruleset 0, .ruleset 3, .modeName "fruits", .modeName "mania"]

/-- `const ratelimit = users.length * modes.length * 2`. -/
def ratelimit (numUsers numModes : Nat) : Nat := numUsers * numModes * 2

/-- The cron schedule `*/n * * * * *` (standard cron step semantics, as
implemented by node-cron): the job fires at every wall-clock second `t` whose
second-of-minute value `t % 60` is divisible by `n`. -/
def tickAtSecond (n t : Nat) : Bool := (t % 60) % n == 0

/-- An instrumented run of per-result ingestion cycles: one cycle is the loop
body `ingestStep` for the roster user `c.u` and the fetched score `c.s`; a
database rejection aborts the run (the callback throws), and the rows created
along the way are logged in insertion order. -/
structure CycleIn where
  u : Nat
  s : Score
deriving DecidableEq, Repr

/-- Run a list of ingestion cycles from a store, logging every row created. -/
def runCycles : List CycleIn → Store → List DedupRecord → Store × List DedupRecord
  | [], st, log => (st, log)
  | c :: rest, st, log =>
    match ingestStep c.u c.s st with
    | .error _ => (st, log)
    | .ok out => runCycles rest out.store (log ++ out.inserted.toList)

/-! ## Well-formedness of reachable stores -/

/-- Row ids strictly decrease along the row list (newest first). -/
def sortedDesc (l : List DedupRecord) : Prop := l.Pairwise fun a b => b.id < a.id

/-- Basic well-formedness of a store: rows newest-first and every row id below
the auto-increment counter. -/
structure StoreWf (st : Store) : Prop where
  sorted : sortedDesc st.records
  bounded : ∀ r ∈ st.records, r.id < st.nextId

/-- Invariant tying a store to the log of rows created so far: rows are
newest-first, ids are below the counter, and every (player, mode) partition
holds exactly the (up to) 10 most recently created rows for that pair, newest
first. -/
structure CyclesWf (st : Store) (log : List DedupRecord) : Prop where
  sorted : sortedDesc st.records
  bounded : ∀ r ∈ st.records, r.id < st.nextId
  partEq : ∀ p m, st.records.filter (pairFilter p m)
      = ((log.filter (pairFilter p m)).reverse).take 10

/-! ## Concrete example inputs used for evaluation -/

/-- A roster player as attached to a score. -/
def exUser : ScoreUser := ⟨7, "playerA", "https://a.example/avatar.png"⟩

/-- An osu!standard beatmap. -/
def exBeatmapOsu : Beatmap := ⟨101, "osu", "ranked"⟩

/-- A mania beatmap. -/
def exBeatmapMania : Beatmap := ⟨102, "mania", "ranked"⟩

/-- A beatmapset. -/
def exBeatmapset : Beatmapset := ⟨55, "Song", "Artist", "https://a.example/cover.jpg"⟩

/-- A recent osu!standard score with nonzero raw accuracy and rank S. -/
def exScoreA : Score :=
  ⟨1001, 1, exUser, exBeatmapOsu, exBeatmapset,
   ⟨some 1, some 2, some 3, none, some 200, none⟩,
   123456, 0, some 12, "S", 321, ["HD"], "2024-01-01T00:00:00Z"⟩

/-- A mania score whose raw accuracy is zero (spec test vector:
perfect = 50, great = 50, all other counters 0). -/
def exScoreMania0 : Score :=
  ⟨1002, 0, exUser, exBeatmapMania, exBeatmapset,
   ⟨some 0, some 0, some 0, some 0, some 50, some 50⟩,
   900000, 0, none, "A", 100, [], "2024-01-02T00:00:00Z"⟩

/-- An osu!standard score whose raw accuracy is zero (spec test vector:
great = 100, all other counters absent). -/
def exScoreOsu0 : Score :=
  ⟨1003, 0, exUser, exBeatmapOsu, exBeatmapset,
   ⟨none, none, none, none, some 100, none⟩,
   800000, 0, none, "X", 100, [], "2024-01-03T00:00:00Z"⟩

/-- A score with raw accuracy zero and every statistic counter absent:
`total_hits` is 0 for it. -/
def exScoreZero : Score :=
  ⟨1004, 0, exUser, exBeatmapOsu, exBeatmapset,
   ⟨none, none, none, none, none, none⟩,
   0, 0, none, "D", 0, [], "2024-01-04T00:00:00Z"⟩

/-- A score whose rank grade `"F"` lies outside the six-symbol palette. -/
def exScoreF : Score :=
  ⟨1005, 1, exUser, exBeatmapOsu, exBeatmapset,
   ⟨some 10, some 0, some 0, none, some 20, none⟩,
   1000, 0, none, "F", 30, [], "2024-01-05T00:00:00Z"⟩

/-- A fetch that rejects for swept mode 0 and returns a fresh score for swept
mode 1. -/
def exFetchA (u m : Nat) : Except Unit (List Score) :=
  if m == 0 then .error ()
  else if m == 1 then .ok [exScoreA]
  else .ok []

/-- The same fetch with the mode-0 failure replaced by an empty result. -/
def exFetchB (u m : Nat) : Except Unit (List Score) :=
  if m == 0 then .ok []
  else if m == 1 then .ok [exScoreA]
  else .ok []

/-! ## Lemmas about the store operations -/

theorem findAllDesc_eq_filter {st : Store} (hs : sortedDesc st.records)
    (u : Nat) (gm : String) :
    findAllDesc st u gm = st.records.filter (pairFilter u gm) := by
  apply List.Sorted.insertionSort_eq
  exact List.Pairwise.imp (fun hab => Nat.le_of_lt hab)
    (List.Pairwise.sublist (List.filter_sublist _) hs)

theorem prune_of_le {st : Store} (hs : sortedDesc st.records) {u : Nat} {gm : String}
    (h : (st.records.filter (pairFilter u gm)).length ≤ 10) :
    prune u gm st = st := by
  rw [prune, findAllDesc_eq_filter hs]
  rw [dif_neg (by omega)]

theorem sortedDesc_ids_nodup {l : List DedupRecord} (hs : sortedDesc l) :
    (l.map fun r => r.id).Nodup := by
  rw [List.Nodup, List.pairwise_map]
  exact hs.imp fun hab => Nat.ne_of_gt hab

theorem id_inj_of_sorted {l : List DedupRecord} (hs : sortedDesc l)
    {x y : DedupRecord} (hx : x ∈ l) (hy : y ∈ l) (h : x.id = y.id) : x = y :=
  List.inj_on_of_nodup_map (sortedDesc_ids_nodup hs) hx hy h

theorem filter_ne_last_id {lfront : List DedupRecord} {x : DedupRecord}
    (h : ∀ y ∈ lfront, x.id < y.id) :
    (lfront ++ [x]).filter (fun a => a.id != x.id) = lfront := by
  rw [List.filter_append]
  have h1 : lfront.filter (fun a => a.id != x.id) = lfront :=
    List.filter_eq_self.2 fun y hy => by
      simpa using Nat.ne_of_gt (h y hy)
  have h2 : [x].filter (fun a => a.id != x.id) = [] := by simp
  rw [h1, h2, List.append_nil]

theorem ingestStep_exists_eq {u : Nat} {s : Score} {st : Store}
    (hs : sortedDesc st.records)
    (hlen : (st.records.filter (pairFilter u s.beatmap.mode)).length ≤ 10)
    (hex : existsTriple s.user.id s.id s.beatmap.mode st = true) :
    ingestStep u s st = .ok ⟨st, none, none⟩ := by
  rw [ingestStep, if_pos hex, prune_of_le hs hlen]

theorem sortedDesc_filter {l : List DedupRecord} (pf : DedupRecord → Bool)
    (h : sortedDesc l) : sortedDesc (l.filter pf) := by
  have h2 : List.Pairwise (fun a b : DedupRecord => b.id < a.id) l := h
  exact List.Pairwise.filter pf h2

theorem prune_records_of_gt {st : Store} {u : Nat} {gm : String}
    (h : 10 < (findAllDesc st u gm).length) :
    prune u gm st
      = ⟨st.records.filter fun r2 => r2.id != ((findAllDesc st u gm).get ⟨10, h⟩).id,
         st.nextId⟩ := by
  rw [prune, dif_pos h]

theorem ingestStep_insert_eq {u : Nat} {s : Score} {st : Store}
    (hs : sortedDesc st.records) (hb : ∀ r ∈ st.records, r.id < st.nextId)
    (hu : s.user.id = u)
    (hlen : (st.records.filter (pairFilter u s.beatmap.mode)).length ≤ 10)
    (hex : existsTriple s.user.id s.id s.beatmap.mode st = false)
    (hc : (st.records.any fun r => r.scoreId == s.id) = false) :
    ∃ stOut : Store,
      ingestStep u s st
        = .ok ⟨stOut, some ⟨st.nextId, s.user.id, s.id, s.beatmap.mode⟩,
               some (createScoreEmbed (fixScore s))⟩
      ∧ stOut.nextId = st.nextId + 1
      ∧ sortedDesc stOut.records
      ∧ (∀ r ∈ stOut.records, r.id < stOut.nextId)
      ∧ stOut.records.filter (pairFilter u s.beatmap.mode)
          = ((⟨st.nextId, s.user.id, s.id, s.beatmap.mode⟩ : DedupRecord)
              :: st.records.filter (pairFilter u s.beatmap.mode)).take 10
      ∧ (∀ p m, ¬(p = u ∧ m = s.beatmap.mode) →
          stOut.records.filter (pairFilter p m) = st.records.filter (pairFilter p m))
      ∧ (⟨st.nextId, s.user.id, s.id, s.beatmap.mode⟩ : DedupRecord) ∈ stOut.records := by
  set gm := s.beatmap.mode with hgm
  set r : DedupRecord := ⟨st.nextId, s.user.id, s.id, gm⟩ with hr
  set st1 : Store := ⟨r :: st.records, st.nextId + 1⟩ with hst1
  have hr_pf : pairFilter u gm r = true := by
    simp [pairFilter, hr, hu]
  have hr_pf_other : ∀ p m, ¬(p = u ∧ m = gm) → pairFilter p m r = false := by
    intro p m hpm
    rcases Bool.eq_false_or_eq_true (pairFilter p m r) with ht | hf
    · exfalso
      apply hpm
      simp only [pairFilter, hr, Bool.and_eq_true, beq_iff_eq] at ht
      exact ⟨ht.1.symm.trans hu, ht.2.symm⟩
    · exact hf
  have hs1 : sortedDesc st1.records := by
    refine List.Pairwise.cons ?_ hs
    intro y hy
    exact hb y hy
  have hb1 : ∀ r2 ∈ st1.records, r2.id < st1.nextId := by
    intro r2 h2
    rcases List.mem_cons.1 h2 with h2 | h2
    · subst h2; exact Nat.lt_succ_self _
    · exact Nat.lt_succ_of_lt (hb r2 h2)
  have hpart1 : st1.records.filter (pairFilter u gm)
      = r :: st.records.filter (pairFilter u gm) := by
    simp [hst1, List.filter_cons, hr_pf]
  have hpart1_other : ∀ p m, ¬(p = u ∧ m = gm) →
      st1.records.filter (pairFilter p m) = st.records.filter (pairFilter p m) := by
    intro p m hpm
    simp [hst1, List.filter_cons, hr_pf_other p m hpm]
  have hstep : ingestStep u s st
      = .ok ⟨prune u gm st1, some r, some (createScoreEmbed (fixScore s))⟩ := by
    rw [ingestStep, if_neg (by simp [hex]), create, if_neg (by simp [hc])]
  by_cases hlen9 : (st.records.filter (pairFilter u gm)).length ≤ 9
  · have hlist : (r :: st.records.filter (pairFilter u gm)).length ≤ 10 := by
      simp only [List.length_cons]
      omega
    have hle : (st1.records.filter (pairFilter u gm)).length ≤ 10 := by
      rw [hpart1]; exact hlist
    have hpr : prune u gm st1 = st1 := prune_of_le hs1 hle
    refine ⟨st1, ?_, rfl, hs1, hb1, ?_, hpart1_other, ?_⟩
    · rw [hstep, hpr]
    · rw [hpart1, List.take_of_length_le hlist]
    · exact List.mem_cons_self _ _
  · have hlen10 : (st.records.filter (pairFilter u gm)).length = 10 := by omega
    set L := r :: st.records.filter (pairFilter u gm) with hLdef
    have hLlen : L.length = 11 := by
      rw [hLdef, List.length_cons, hlen10]
    have hLs : sortedDesc L := by
      have h2 := sortedDesc_filter (pairFilter u gm) hs1
      rwa [hpart1] at h2
    have h10 : 10 < L.length := by omega
    set x := L.get ⟨10, h10⟩ with hx
    have hxL : x ∈ L := by
      rw [hx, List.get_eq_getElem]
      exact L.getElem_mem _
    have hdec : L.take 10 ++ [x] = L := by
      have h1 : L.take 11 = L := List.take_of_length_le (by omega)
      have h2 : L.take (10 + 1) = L.take 10 ++ L[10]?.toList := List.take_succ
      have h3 : L[10]? = some x := by
        rw [List.getElem?_eq_getElem h10, hx, List.get_eq_getElem]
      rw [h3] at h2
      simp only [Option.toList_some] at h2
      rw [← h2, h1]
    have hgt : ∀ y ∈ L.take 10, x.id < y.id := by
      have hpw : List.Pairwise (fun a b : DedupRecord => b.id < a.id) (L.take 10 ++ [x]) := by
        rw [hdec]; exact hLs
      have h2 := List.pairwise_append.1 hpw
      intro y hy
      exact h2.2.2 y hy x (List.mem_singleton.2 rfl)
    have hfa : findAllDesc st1 u gm = L := by
      rw [findAllDesc_eq_filter hs1, hpart1]
    have h10f : 10 < (findAllDesc st1 u gm).length := by rw [hfa]; omega
    have hgeteq : (findAllDesc st1 u gm).get ⟨10, h10f⟩ = x := by
      have e1 : (findAllDesc st1 u gm)[10]? = L[10]? := by rw [hfa]
      rw [List.getElem?_eq_getElem h10f, List.getElem?_eq_getElem h10] at e1
      have e2 := Option.some.inj e1
      rw [hx, List.get_eq_getElem, List.get_eq_getElem]
      exact e2
    have hprune : prune u gm st1
        = ⟨st1.records.filter fun a => a.id != x.id, st1.nextId⟩ := by
      rw [prune_records_of_gt h10f, hgeteq]
    have hcomm : ∀ (pf : DedupRecord → Bool),
        (st1.records.filter fun a => a.id != x.id).filter pf
          = (st1.records.filter pf).filter fun a => a.id != x.id := by
      intro pf
      simp only [List.filter_filter]
      congr 1
      funext a
      exact Bool.and_comm _ _
    have hsame : (prune u gm st1).records.filter (pairFilter u gm) = L.take 10 := by
      rw [hprune]
      show (st1.records.filter fun a => a.id != x.id).filter (pairFilter u gm) = L.take 10
      rw [hcomm, hpart1]
      calc ((L.filter fun a => a.id != x.id))
          = (L.take 10 ++ [x]).filter fun a => a.id != x.id := by rw [hdec]
        _ = L.take 10 := filter_ne_last_id hgt
    have hother : ∀ p m, ¬(p = u ∧ m = gm) →
        (prune u gm st1).records.filter (pairFilter p m)
          = st.records.filter (pairFilter p m) := by
      intro p m hpm
      rw [hprune]
      show (st1.records.filter fun a => a.id != x.id).filter (pairFilter p m)
        = st.records.filter (pairFilter p m)
      rw [hcomm, hpart1_other p m hpm]
      apply List.filter_eq_self.2
      intro y hy
      have hy1 : y ∈ st.records := (List.mem_filter.1 hy).1
      have hy_mem : y ∈ st1.records := List.mem_cons_of_mem _ hy1
      have hxf : x ∈ st1.records.filter (pairFilter u gm) := by
        rw [hpart1]; exact hxL
      have hx_mem : x ∈ st1.records := (List.mem_filter.1 hxf).1
      have hxpp : pairFilter u gm x = true := (List.mem_filter.1 hxf).2
      have hypp : pairFilter p m y = true := (List.mem_filter.1 hy).2
      have hne : y ≠ x := by
        intro he
        apply hpm
        simp only [pairFilter, Bool.and_eq_true, beq_iff_eq] at hypp hxpp
        rw [he] at hypp
        exact ⟨hypp.1.symm.trans hxpp.1, hypp.2.symm.trans hxpp.2⟩
      have hid : y.id ≠ x.id := fun h2 => hne (id_inj_of_sorted hs1 hy_mem hx_mem h2)
      simpa using hid
    refine ⟨prune u gm st1, hstep, ?_, ?_, ?_, ?_, hother, ?_⟩
    · rw [hprune]
    · rw [hprune]
      exact sortedDesc_filter _ hs1
    · intro r2 h2
      rw [hprune] at h2 ⊢
      exact hb1 r2 (List.mem_filter.1 h2).1
    · rw [hsame, hLdef]
    · have h2 : r ∈ (prune u gm st1).records.filter (pairFilter u gm) := by
        rw [hsame, hLdef, List.take_succ_cons]
        exact List.mem_cons_self _ _
      exact (List.mem_filter.1 h2).1

theorem pairFilter_false_of_ne {p u : Nat} {m gm : String} (hpm : ¬(p = u ∧ m = gm))
    {r : DedupRecord} (hru : r.userId = u) (hrm : r.gamemode = gm) :
    pairFilter p m r = false := by
  rcases Bool.eq_false_or_eq_true (pairFilter p m r) with ht | hf
  · exfalso
    apply hpm
    simp only [pairFilter, Bool.and_eq_true, beq_iff_eq] at ht
    exact ⟨ht.1.symm.trans hru, ht.2.symm.trans hrm⟩
  · exact hf

theorem cyclesWf_step {u : Nat} {s : Score} (hu : s.user.id = u) {st : Store}
    {log : List DedupRecord} (h : CyclesWf st log) {out : IngestOut}
    (hok : ingestStep u s st = .ok out) :
    CyclesWf out.store (log ++ out.inserted.toList) := by
  have hlen : (st.records.filter (pairFilter u s.beatmap.mode)).length ≤ 10 := by
    rw [h.partEq u s.beatmap.mode]
    exact List.length_take_le _ _
  rcases Bool.eq_false_or_eq_true (existsTriple s.user.id s.id s.beatmap.mode st)
    with hex | hex
  · rw [ingestStep_exists_eq h.sorted hlen hex] at hok
    have hout := Except.ok.inj hok
    subst hout
    refine ⟨h.sorted, h.bounded, ?_⟩
    intro p m
    simpa using h.partEq p m
  · rcases Bool.eq_false_or_eq_true (st.records.any fun r => r.scoreId == s.id)
      with hany | hany
    · exfalso
      rw [ingestStep, if_neg (by simp [hex]), create, if_pos (by simp [hany])] at hok
      exact absurd hok (by simp)
    · obtain ⟨stOut, heq, hnext, hsort, hbound, hsame, hother, hmem⟩ :=
        ingestStep_insert_eq h.sorted h.bounded hu hlen hex hany
      rw [heq] at hok
      have hout := Except.ok.inj hok
      subst hout
      refine ⟨hsort, hbound, ?_⟩
      intro p m
      show stOut.records.filter (pairFilter p m)
        = (((log ++ [(⟨st.nextId, s.user.id, s.id, s.beatmap.mode⟩ : DedupRecord)]).filter
            (pairFilter p m)).reverse).take 10
      by_cases hpm : p = u ∧ m = s.beatmap.mode
      · obtain ⟨rfl, rfl⟩ := hpm
        have hpf : List.filter (pairFilter p s.beatmap.mode)
            [(⟨st.nextId, s.user.id, s.id, s.beatmap.mode⟩ : DedupRecord)]
            = [⟨st.nextId, s.user.id, s.id, s.beatmap.mode⟩] := by
          simp [pairFilter, hu]
        rw [hsame, h.partEq p s.beatmap.mode, List.filter_append, hpf,
          List.reverse_append]
        simp [List.take_succ_cons, List.take_take]
      · have h2 : pairFilter p m
            (⟨st.nextId, s.user.id, s.id, s.beatmap.mode⟩ : DedupRecord) = false :=
          pairFilter_false_of_ne hpm hu rfl
        have hpf : List.filter (pairFilter p m)
            [(⟨st.nextId, s.user.id, s.id, s.beatmap.mode⟩ : DedupRecord)] = [] := by
          simp [List.filter_cons, h2]
        rw [hother p m hpm, List.filter_append, hpf, List.append_nil]
        exact h.partEq p m

theorem runCycles_wf (cs : List CycleIn) :
    ∀ (st : Store) (log : List DedupRecord),
    (∀ c ∈ cs, c.s.user.id = c.u) → CyclesWf st log →
    CyclesWf (runCycles cs st log).1 (runCycles cs st log).2 := by
  induction cs with
  | nil => intro st log _ h; exact h
  | cons c rest ih =>
    intro st log hcs h
    rw [runCycles]
    cases hok : ingestStep c.u c.s st with
    | error e => exact h
    | ok out =>
      exact ih _ _ (fun c2 h2 => hcs c2 (List.mem_cons_of_mem _ h2))
        (cyclesWf_step (hcs c (List.mem_cons_self c rest)) h hok)

/-! ## The claims -/

/-- C1. Retention invariant: starting from the empty store, after any finite
sequence of per-result ingestion cycles (existence check, optional insert,
then prune) in which each cycle's score belongs to the swept roster user, every
(player, mode) partition holds at most 10 rows, those rows are exactly the (up
to) 10 most recently inserted rows for that pair ordered by surrogate id
descending, and the prune step is idempotent on the resulting store. -/
theorem retention_invariant (cs : List CycleIn)
    (hcs : ∀ c ∈ cs, c.s.user.id = c.u) (p : Nat) (m : String) :
    findAllDesc (runCycles cs emptyStore []).1 p m
        = (((runCycles cs emptyStore []).2.filter (pairFilter p m)).reverse).take 10
    ∧ (findAllDesc (runCycles cs emptyStore []).1 p m).length ≤ 10
    ∧ prune p m (runCycles cs emptyStore []).1 = (runCycles cs emptyStore []).1 := by
  have h0 : CyclesWf emptyStore [] := by
    refine ⟨List.Pairwise.nil, ?_, ?_⟩
    · intro r hr
      simp [emptyStore] at hr
    · intro p2 m2
      simp [emptyStore]
  have h := runCycles_wf cs emptyStore [] hcs h0
  have hfe := findAllDesc_eq_filter h.sorted p m
  refine ⟨?_, ?_, ?_⟩
  · rw [hfe]
    exact h.partEq p m
  · rw [hfe, h.partEq p m]
    exact List.length_take_le _ _
  · exact prune_of_le h.sorted (by rw [h.partEq p m]; exact List.length_take_le _ _)

/-- Witness for C1: one concrete cycle inserting `exScoreA` for roster user 7;
the (7, "osu") partition then holds exactly that row and pruning again is a
no-op. -/
theorem retention_invariant_witness :
    (∀ c ∈ [CycleIn.mk 7 exScoreA], c.s.user.id = c.u)
    ∧ (findAllDesc (runCycles [CycleIn.mk 7 exScoreA] emptyStore []).1 7 "osu"
        = (((runCycles [CycleIn.mk 7 exScoreA] emptyStore []).2.filter
            (pairFilter 7 "osu")).reverse).take 10
      ∧ (findAllDesc (runCycles [CycleIn.mk 7 exScoreA] emptyStore []).1 7 "osu").length ≤ 10
      ∧ prune 7 "osu" (runCycles [CycleIn.mk 7 exScoreA] emptyStore []).1
          = (runCycles [CycleIn.mk 7 exScoreA] emptyStore []).1) :=
  ⟨by decide, retention_invariant [CycleIn.mk 7 exScoreA] (by decide) 7 "osu"⟩

/-- C2. Ingestion idempotence: from any reachable store state (well-formed,
partition within the retention bound, no foreign row sharing the score id),
running the per-result ingestion step twice with the same score dispatches at
most one notification in total: the first run succeeds, and the second run
observes `exists = true` for the score's dedup triple, skips the insert and the
render/dispatch (`inserted = none`, `sent = none`), raises no error and leaves
the store unchanged. -/
theorem ingest_idempotent (u : Nat) (s : Score) (st : Store)
    (hwf : StoreWf st) (hu : s.user.id = u)
    (hclean : ∀ r ∈ st.records, r.scoreId = s.id →
      r.userId = s.user.id ∧ r.gamemode = s.beatmap.mode)
    (hlen : (st.records.filter (pairFilter u s.beatmap.mode)).length ≤ 10) :
    ∃ out1 : IngestOut, ingestStep u s st = .ok out1
      ∧ existsTriple s.user.id s.id s.beatmap.mode out1.store = true
      ∧ ingestStep u s out1.store = .ok ⟨out1.store, none, none⟩ := by
  rcases Bool.eq_false_or_eq_true (existsTriple s.user.id s.id s.beatmap.mode st)
    with hex | hex
  · have h1 := ingestStep_exists_eq hwf.sorted hlen hex
    exact ⟨⟨st, none, none⟩, h1, hex, h1⟩
  · have hany : (st.records.any fun r => r.scoreId == s.id) = false := by
      rcases Bool.eq_false_or_eq_true (st.records.any fun r => r.scoreId == s.id)
        with ha | ha
      · exfalso
        rw [List.any_eq_true] at ha
        obtain ⟨r, hrmem, hrid⟩ := ha
        have hrid2 : r.scoreId = s.id := by simpa using hrid
        obtain ⟨e1, e2⟩ := hclean r hrmem hrid2
        have htr : existsTriple s.user.id s.id s.beatmap.mode st = true := by
          rw [existsTriple, List.any_eq_true]
          exact ⟨r, hrmem, by simp [e1, e2, hrid2]⟩
        rw [htr] at hex
        exact absurd hex (by decide)
      · exact ha
    obtain ⟨stOut, heq, hnext, hsort, hbound, hsame, hother, hmem⟩ :=
      ingestStep_insert_eq hwf.sorted hwf.bounded hu hlen hex hany
    have hex2 : existsTriple s.user.id s.id s.beatmap.mode stOut = true := by
      rw [existsTriple, List.any_eq_true]
      exact ⟨_, hmem, by simp⟩
    have hlen2 : (stOut.records.filter (pairFilter u s.beatmap.mode)).length ≤ 10 := by
      rw [hsame]
      exact List.length_take_le _ _
    exact ⟨_, heq, hex2, ingestStep_exists_eq hsort hlen2 hex2⟩

/-- Witness for C2: ingesting `exScoreA` twice for roster user 7 from the empty
store; the first run inserts and sends, the second finds the triple and is a
no-op. -/
theorem ingest_idempotent_witness :
    ∃ out1 : IngestOut, ingestStep 7 exScoreA emptyStore = .ok out1
      ∧ existsTriple exScoreA.user.id exScoreA.id exScoreA.beatmap.mode out1.store = true
      ∧ ingestStep 7 exScoreA out1.store = .ok ⟨out1.store, none, none⟩ :=
  ingest_idempotent 7 exScoreA emptyStore
    ⟨List.Pairwise.nil, by intro r hr; simp [emptyStore] at hr⟩ (by decide)
    (by intro r hr; simp [emptyStore] at hr) (by decide)

/-- A store holding the dedup row (player 1, result 5, mode "osu"). -/
def exStoreCross : Store := ⟨[⟨1, 1, 5, "osu"⟩], 2⟩

/-- C3 counterexample: inserting (player 2, result 5, mode "mania") — a triple
that differs from the stored (1, 5, "osu") in both player and mode but shares
the result id — is rejected with a conflict, because the uniqueness constraint
of the sequelize model is declared on `scoreId` alone; the two records cannot
coexist, contrary to the claim. -/
theorem create_conflict_cross_partition :
    create 2 5 "mania" exStoreCross = .error .conflict
    ∧ ¬ (existsTriple 2 5 "mania" exStoreCross = true) := by
  constructor
  · rfl
  · decide

/-- C3 amended: `Score.create` fails with a conflict iff some stored row
already has the same `scoreId`, irrespective of player id and mode; otherwise
it creates the row with the next store-wide auto-increment surrogate id. -/
theorem create_conflict_iff (u sid : Nat) (gm : String) (st : Store) :
    (create u sid gm st = .error .conflict ↔ ∃ r ∈ st.records, r.scoreId = sid)
    ∧ ((∀ r ∈ st.records, r.scoreId ≠ sid) →
      create u sid gm st = .ok (⟨st.nextId, u, sid, gm⟩,
        ⟨(⟨st.nextId, u, sid, gm⟩ : DedupRecord) :: st.records, st.nextId + 1⟩)) := by
  constructor
  · rcases Bool.eq_false_or_eq_true (st.records.any fun r => r.scoreId == sid)
      with ha | ha
    · rw [create, if_pos ha]
      simp only [true_iff, iff_true_intro rfl]
      rw [List.any_eq_true] at ha
      obtain ⟨r, hrmem, hrid⟩ := ha
      exact ⟨r, hrmem, by simpa using hrid⟩
    · rw [create, if_neg (by simp [ha])]
      constructor
      · intro hcontra
        exact absurd hcontra (by simp)
      · intro hexr
        exfalso
        obtain ⟨r, hrmem, hrid⟩ := hexr
        have : (st.records.any fun r => r.scoreId == sid) = true := by
          rw [List.any_eq_true]
          exact ⟨r, hrmem, by simpa using hrid⟩
        rw [this] at ha
        exact absurd ha (by decide)
  · intro hnone
    have ha : (st.records.any fun r => r.scoreId == sid) = false := by
      rcases Bool.eq_false_or_eq_true (st.records.any fun r => r.scoreId == sid)
        with ha | ha
      · exfalso
        rw [List.any_eq_true] at ha
        obtain ⟨r, hrmem, hrid⟩ := ha
        exact hnone r hrmem (by simpa using hrid)
      · exact ha
    rw [create, if_neg (by simp [ha])]

/-- Witness for C3 (amended): inserting result 6 into `exStoreCross` (which
only holds result 5) succeeds and creates row id 2. -/
theorem create_conflict_iff_witness :
    (∀ r ∈ exStoreCross.records, r.scoreId ≠ 6)
    ∧ create 3 6 "osu" exStoreCross = .ok (⟨2, 3, 6, "osu"⟩,
        ⟨[⟨2, 3, 6, "osu"⟩, ⟨1, 1, 5, "osu"⟩], 3⟩) :=
  ⟨by decide, by
    have h := (create_conflict_iff 3 6 "osu" exStoreCross).2 (by decide)
    simpa [exStoreCross] using h⟩


/-- C4. Accuracy computation: for every raw score, after defaulting each absent
counter to 0, a nonzero raw accuracy passes through unchanged; otherwise a
mania-family mode uses the six-counter weighted formula and every other mode
the four-counter formula, exactly as the claim states them. -/
theorem calculateAccuracy_spec (r : Score) :
    ((fixScore r).accuracy ≠ 0 → calculateAccuracy (fixScore r) = (fixScore r).accuracy)
    ∧ ((fixScore r).accuracy = 0 → strContains r.beatmap.mode "mania" = true →
      calculateAccuracy (fixScore r)
        = (50 * (r.statistics.meh.getD 0 : Rat) + 100 * (r.statistics.ok.getD 0 : Rat)
            + 200 * (r.statistics.good.getD 0 : Rat) + 300 * (r.statistics.great.getD 0 : Rat)
            + 300 * (r.statistics.perfect.getD 0 : Rat))
          / (300 * ((r.statistics.miss.getD 0 : Rat) + (r.statistics.meh.getD 0 : Rat)
            + (r.statistics.ok.getD 0 : Rat) + (r.statistics.good.getD 0 : Rat)
            + (r.statistics.great.getD 0 : Rat) + (r.statistics.perfect.getD 0 : Rat))))
    ∧ ((fixScore r).accuracy = 0 → strContains r.beatmap.mode "mania" = false →
      calculateAccuracy (fixScore r)
        = (300 * (r.statistics.great.getD 0 : Rat) + 100 * (r.statistics.ok.getD 0 : Rat)
            + 50 * (r.statistics.meh.getD 0 : Rat))
          / (300 * ((r.statistics.great.getD 0 : Rat) + (r.statistics.ok.getD 0 : Rat)
            + (r.statistics.meh.getD 0 : Rat) + (r.statistics.miss.getD 0 : Rat)))) := by
  refine ⟨?_, ?_, ?_⟩
  · intro h
    rw [calculateAccuracy, if_pos h]
  · intro h hm
    rw [calculateAccuracy, if_neg (by simp [h]), if_pos (by simpa [fixScore] using hm)]
    simp only [fixScore]
    congr 1 <;> ring
  · intro h hm
    rw [calculateAccuracy, if_neg (by simp [h]), if_neg (by simp [fixScore, hm])]
    simp only [fixScore]
    congr 1 <;> ring

/-- Witness for C4: the spec's two test vectors and a pass-through case:
`exScoreA` (accuracy 1 ≠ 0) is passed through; `exScoreMania0` (mania,
perfect = 50, great = 50, others 0) computes to accuracy 1; `exScoreOsu0`
(osu, great = 100, others absent) computes to accuracy 1. -/
theorem calculateAccuracy_spec_witness :
    ((fixScore exScoreA).accuracy ≠ 0
      ∧ calculateAccuracy (fixScore exScoreA) = 1)
    ∧ ((fixScore exScoreMania0).accuracy = 0
      ∧ strContains exScoreMania0.beatmap.mode "mania" = true
      ∧ calculateAccuracy (fixScore exScoreMania0) = 1)
    ∧ ((fixScore exScoreOsu0).accuracy = 0
      ∧ strContains exScoreOsu0.beatmap.mode "mania" = false
      ∧ calculateAccuracy (fixScore exScoreOsu0) = 1) := by
  refine ⟨⟨by decide, ?_⟩, ⟨rfl, by decide, ?_⟩, ⟨rfl, by decide, ?_⟩⟩
  · rw [(calculateAccuracy_spec exScoreA).1 (by decide)]
    rfl
  · rw [(calculateAccuracy_spec exScoreMania0).2.1 rfl (by decide)]
    norm_num [exScoreMania0]
  · rw [(calculateAccuracy_spec exScoreOsu0).2.2 rfl (by decide)]
    norm_num [exScoreOsu0]

/-- C5. Division by zero is not guarded: for `exScoreZero` (raw accuracy 0 and
every counter absent, hence `total_hits = 0`) the divisor of the source's
accuracy division is 0, so the JS computation yields NaN; the code defines no
`UndefinedAccuracyError`, performs no clamp, and the embed builder interpolates
the resulting accuracy value into the Accuracy field unconditionally. -/
theorem accuracy_div_zero_unguarded :
    accuracyDefined (fixScore exScoreZero) = false
    ∧ (createGenericScoreEmbed (fixScore exScoreZero)).accuracyShown
        = calculateAccuracy (fixScore exScoreZero) * 100 := by
  constructor
  · rw [accuracyDefined, if_neg (by norm_num [fixScore, exScoreZero]),
      if_neg (by decide)]
    norm_num [fixScore, exScoreZero]
  · rfl

/-- C6 counterexample: with `exFetchA` (which rejects for (user 7, mode 0) and
has a fresh dispatchable score at (user 7, mode 1)) the whole sweep evaluates
to an error — the remaining (player, mode) pairs are never processed and no
notification is produced — whereas the identical fetch without the mode-0
failure (`exFetchB`) processes pair (7, 1) and dispatches one notification. -/
theorem sweep_abort_counterexample :
    sweep exFetchA [7] emptyStore = .error .fetch
    ∧ ((sweep exFetchB [7] emptyStore).toOption.map
        fun x => (x.1, x.2.length)) = some (⟨[⟨1, 7, 1001, "osu"⟩], 2⟩, 1) := by
  constructor
  · rfl
  · rfl

/-- C6 amended: a fetch failure is not contained — there is no try/catch around
`api.getUserScores`, so a rejected fetch for the first (player, mode) pair
aborts the entire sweep and no later pair is processed. -/
theorem sweep_fetch_error_aborts (f : Nat → Nat → Except Unit (List Score))
    (u : Nat) (rest : List Nat) (st : Store) (e : Unit)
    (hf : f u 0 = .error e) :
    sweep f (u :: rest) st = .error .fetch := by
  rw [sweep, sweepModes, sweepUserMode, hf]

/-- Witness for C6 (amended): `exFetchA` rejects at (7, 0), so the sweep over
roster [7, 8] from the empty store errors out. -/
theorem sweep_fetch_error_aborts_witness :
    exFetchA 7 0 = .error ()
    ∧ sweep exFetchA [7, 8] emptyStore = .error .fetch :=
  ⟨rfl, sweep_fetch_error_aborts exFetchA 7 [8] emptyStore () rfl⟩

/-- C7 counterexample: for the out-of-palette grade `"F"` the color lookup
`colors[score.rank]` yields `undefined` (`none`) — the code raises no
`UnknownGradeError` (no such error exists in the program) — and the icon URL is
interpolated from the unknown grade without any check, so the icon lookup
silently defaults instead of failing. -/
theorem unknown_grade_no_error :
    colorsLookup "F" = none
    ∧ (createScoreEmbed (fixScore exScoreF)).color = none
    ∧ (createScoreEmbed (fixScore exScoreF)).thumbnail
        = "https://raw.githubusercontent.com/Yumeo0/osu-icons/refs/heads/main/Grade-F.png" := by
  refine ⟨rfl, rfl, rfl⟩

/-- C7 amended: the color lookup yields a color exactly for the six grades
{X, S, A, B, C, D}; for any other grade it yields `undefined` (`none`) rather
than raising an `UnknownGradeError`, and for every score the thumbnail icon URL
is built from the rank string unconditionally while the embed color is exactly
the palette lookup of the rank. -/
theorem grade_palette_amended :
    (∀ g : String, (colorsLookup g).isSome = true ↔
      (g = "X" ∨ g = "S" ∨ g = "A" ∨ g = "B" ∨ g = "C" ∨ g = "D"))
    ∧ ∀ score : FixedScore,
      (createScoreEmbed score).thumbnail
        = "https://raw.githubusercontent.com/Yumeo0/osu-icons/refs/heads/main/Grade-"
          ++ score.rank ++ ".png"
      ∧ (createScoreEmbed score).color = colorsLookup score.rank := by
  constructor
  · intro g
    rw [colorsLookup]
    split_ifs with h1 h2 h3 h4 h5 h6 <;> simp_all
  · intro score
    rw [createScoreEmbed]
    split <;>
      exact ⟨rfl, rfl⟩

/-- C9 counterexample: with the roster of 3 users and the 4-entry mode array
the computed step is 24, and the cron pattern `*/24 * * * * *` fires at seconds
0, 24 and 48 of every minute; the tick at second 48 and the next tick at second
60 are only 12 seconds apart, so consecutive ticks are not always 24 seconds
apart. -/
theorem tick_gap_counterexample :
    ratelimit usernames.length modesArr.length = 24
    ∧ tickAtSecond 24 48 = true
    ∧ tickAtSecond 24 60 = true
    ∧ ((List.range 11).all fun i => !tickAtSecond 24 (49 + i)) = true
    ∧ 60 - 48 ≠ 24 := by
  refine ⟨rfl, rfl, rfl, by decide, by decide⟩

/-- C9 amended: the tick period formula is `roster_size × mode_count × 2`
(= 24 for the static 3-player roster and the 4-entry mode list), used as a cron
step on the seconds field: the job fires exactly at seconds 0, 24 and 48 of
each minute, giving gaps of 24, 24 and 12 seconds rather than a uniform
24-second period. -/
theorem cadence_amended :
    ratelimit usernames.length modesArr.length = 24
    ∧ ∀ t : Nat, tickAtSecond 24 t = true ↔
        (t % 60 = 0 ∨ t % 60 = 24 ∨ t % 60 = 48) := by
  constructor
  · rfl
  · intro t
    rw [tickAtSecond]
    have h : t % 60 < 60 := Nat.mod_lt _ (by omega)
    simp only [beq_iff_eq]
    omega

/-- C10. Dedup keyed by the beatmap's intrinsic mode: processing a score during
the sweep of any mode index keys the existence check, the created row and the
prune partition by `score.beatmap.mode`, independently of the swept mode — so
the same score surfacing under two different swept modes `m1` and `m2` lands in
the same (player, beatmap-mode) partition: the first sweep dispatches one
notification and creates a row whose `gamemode` is the beatmap's own mode, and
the second sweep finds the triple, dispatches nothing and leaves the store
unchanged. -/
theorem dedup_keyed_by_beatmap_mode (f g : Nat → Nat → Except Unit (List Score))
    (u m1 m2 : Nat) (s : Score) (st : Store)
    (hwf : StoreWf st) (hu : s.user.id = u)
    (hf : f u m1 = .ok [s]) (hg : g u m2 = .ok [s])
    (hclean : ∀ r ∈ st.records, r.scoreId ≠ s.id)
    (hlen : (st.records.filter (pairFilter u s.beatmap.mode)).length ≤ 10) :
    ∃ st1 : Store,
      sweepUserMode f u m1 st = .ok (st1, [createScoreEmbed (fixScore s)])
      ∧ (⟨st.nextId, s.user.id, s.id, s.beatmap.mode⟩ : DedupRecord) ∈ st1.records
      ∧ sweepUserMode g u m2 st1 = .ok (st1, []) := by
  have hany : (st.records.any fun r => r.scoreId == s.id) = false := by
    rcases Bool.eq_false_or_eq_true (st.records.any fun r => r.scoreId == s.id)
      with ha | ha
    · exfalso
      rw [List.any_eq_true] at ha
      obtain ⟨r, hrmem, hrid⟩ := ha
      exact hclean r hrmem (by simpa using hrid)
    · exact ha
  have hex : existsTriple s.user.id s.id s.beatmap.mode st = false := by
    rcases Bool.eq_false_or_eq_true (existsTriple s.user.id s.id s.beatmap.mode st)
      with he | he
    · exfalso
      rw [existsTriple, List.any_eq_true] at he
      obtain ⟨r, hrmem, hr⟩ := he
      simp only [Bool.and_eq_true, beq_iff_eq] at hr
      exact hclean r hrmem hr.1.2
    · exact he
  obtain ⟨stOut, heq, hnext, hsort, hbound, hsame, hother, hmem⟩ :=
    ingestStep_insert_eq hwf.sorted hwf.bounded hu hlen hex hany
  have hex2 : existsTriple s.user.id s.id s.beatmap.mode stOut = true := by
    rw [existsTriple, List.any_eq_true]
    exact ⟨_, hmem, by simp⟩
  have hlen2 : (stOut.records.filter (pairFilter u s.beatmap.mode)).length ≤ 10 := by
    rw [hsame]
    exact List.length_take_le _ _
  have hstep2 := ingestStep_exists_eq hsort hlen2 hex2
  refine ⟨stOut, ?_, hmem, ?_⟩
  · rw [sweepUserMode, hf]
    simp only [ingestScores, heq]
    rfl
  · rw [sweepUserMode, hg]
    simp only [ingestScores, hstep2]
    rfl

/-- Witness for C10: the same score `exScoreA` (on an osu beatmap) returned for
swept modes 0 and 3 from the empty store: the first sweep inserts row (1, 7,
1001, "osu") and dispatches once, the second dispatches nothing. -/
theorem dedup_keyed_by_beatmap_mode_witness :
    ∃ st1 : Store,
      sweepUserMode (fun _ _ => .ok [exScoreA]) 7 0 emptyStore
        = .ok (st1, [createScoreEmbed (fixScore exScoreA)])
      ∧ (⟨emptyStore.nextId, exScoreA.user.id, exScoreA.id, exScoreA.beatmap.mode⟩
          : DedupRecord) ∈ st1.records
      ∧ sweepUserMode (fun _ _ => .ok [exScoreA]) 7 3 st1 = .ok (st1, []) :=
  dedup_keyed_by_beatmap_mode (fun _ _ => .ok [exScoreA]) (fun _ _ => .ok [exScoreA])
    7 0 3 exScoreA emptyStore
    ⟨List.Pairwise.nil, by intro r hr; simp [emptyStore] at hr⟩ (by decide)
    rfl rfl (by intro r hr; simp [emptyStore] at hr) (by decide)
